import Mathlib

/-!
# Verification of the APE (Agentic Python Engineer) repair pipeline

Shallow embedding of `src/src/agentic-python-engineer.py`: the traceback
function-name extractor, the context collector, the managed-function
registry, the runtime hot-swap engine, the persistent source patcher and
the retry-orchestrator wrapper produced by the `ape_managed` decorator.

Python strings are modelled as `List Char` where character-level scanning
matters (the traceback parser), and as Lean `String` where they are only
keys or opaque text. Python dicts are modelled as insertion-ordered
association lists with CPython assignment semantics (overwrite in place,
else append). External effects (`exec` of generated code, `ast.parse`,
file I/O) enter as explicit parameters or as event traces, so every
definition is executable.
-/

namespace Ape

/-! ## Python string primitives -/

/-- The characters Python's `str.strip()` removes (ASCII whitespace). -/
def pySpace (c : Char) : Bool :=
  c = ' ' || c = '\t' || c = '\n' || c = '\r' || c = '\x0b' || c = '\x0c'

/-- Python `str.strip()`: drop whitespace from both ends. -/
def pyStrip (l : List Char) : List Char :=
  ((l.dropWhile pySpace).reverse.dropWhile pySpace).reverse

/-- Python `sub in s` (substring containment). -/
def listContains (l pat : List Char) : Bool :=
  match l with
  | [] => pat.isEmpty
  | _ :: t => pat.isPrefixOf l || listContains t pat

/-- Python `tb_str.split('\n')`. -/
def splitOnNewline : List Char → List (List Char)
  | [] => [[]]
  | '\n' :: rest => [] :: splitOnNewline rest
  | c :: rest =>
    match splitOnNewline rest with
    | [] => [[c]]
    | l :: ls => (c :: l) :: ls

/-- A `\w` character of the regex `in (\w+)` (identifier characters; the
traceback names this program meets are ASCII). -/
def isWordChar (c : Char) : Bool :=
  c.isAlphanum || c = '_'

/-- `re.search(r'in (\w+)', line)`: scan start positions left to right; at
the first position where the literal `in ` is followed by at least one
word character, capture the maximal word-character run (`group(1)`).
Returns `none` when the pattern matches nowhere. -/
def reSearchIn : List Char → Option (List Char)
  | [] => none
  | c :: rest =>
    if c = 'i' then
      match rest with
      | 'n' :: ' ' :: d :: rest2 =>
        if isWordChar d then some (d :: rest2.takeWhile isWordChar)
        else reSearchIn rest
      | _ => reSearchIn rest
    else reSearchIn rest

/-! ## Fault Context Collector: `extract_functions_from_traceback` -/

/-- The first guard of the loop body: `'in ' in line and
line.strip().startswith('File')` — a file-location line, skipped. -/
def isFileLocationLine (line : List Char) : Bool :=
  listContains line "in ".data && "File".data.isPrefixOf (pyStrip line)

/-- One iteration of the loop in `extract_functions_from_traceback`:
the name this line contributes, if any. -/
def lineContribution (line : List Char) : Option (List Char) :=
  if isFileLocationLine line then none
  else if !(pyStrip line).isEmpty
      && !([' '].isPrefixOf line)
      && !("Traceback".data.isPrefixOf line) then
    reSearchIn line
  else none

/-- `ApeManager.extract_functions_from_traceback`: split on newlines,
collect the per-line regex matches, deduplicate (`list(set(...))`,
modelled set-level by `List.dedup`). -/
def extract_functions_from_traceback (tb_str : List Char) : List (List Char) :=
  ((splitOnNewline tb_str).filterMap lineContribution).dedup

/-! ## Python dicts (insertion-ordered association lists)

CPython dict assignment `d[k] = v` keeps the key's position when it is
already present and appends otherwise. -/

/-- `k in d` / `d.get(k)`. -/
def dictLookup [BEq κ] (d : List (κ × α)) (k : κ) : Option α :=
  (d.find? (fun p => p.1 == k)).map (·.2)

/-- `d[k] = v`. -/
def dictSet [BEq κ] (d : List (κ × α)) (k : κ) (v : α) : List (κ × α) :=
  if (d.find? (fun p => p.1 == k)).isSome then
    d.map (fun p => if p.1 == k then (k, v) else p)
  else d ++ [(k, v)]

/-! ## Fault Context Collector: `get_context_functions`

The caller's module namespace enters as an association list from name to
attribute value: `dictLookup module name` is `getattr(current_module,
name)` guarded by `hasattr`. `inspect.getsource` either returns the
source text or raises; its outcome is part of the attribute value. -/

/-- The outcome of `inspect.getsource` on an object: the source text, or
the message of the exception it raised. -/
inductive SourceResult
  | ok (src : List Char)
  | err (msg : List Char)
deriving DecidableEq, Repr

/-- An object found in the caller's namespace: whether it is `callable`,
and what `inspect.getsource` does on it. -/
structure PyObj where
  callable : Bool
  source : SourceResult
deriving DecidableEq, Repr

/-- The entry value stored for a resolvable callable: the retrieved source,
or the placeholder `f"# Could not retrieve source: {e}"`. -/
def sourceOrPlaceholder (obj : PyObj) : List Char :=
  match obj.source with
  | .ok src => src
  | .err e => "# Could not retrieve source: ".data ++ e

/-- The body of the loop in `get_context_functions`: `if hasattr(...)`,
`getattr`, `if callable(...)`, then store source or placeholder. -/
def ctxStep (module : List (List Char × PyObj))
    (context_functions : List (List Char × List Char)) (name : List Char) :
    List (List Char × List Char) :=
  match dictLookup module name with
  | none => context_functions
  | some func_obj =>
    if func_obj.callable then
      dictSet context_functions name (sourceOrPlaceholder func_obj)
    else context_functions

/-- `ApeManager.get_context_functions`: extract the stack names from the
traceback, then for each name that resolves in the caller's module to a
callable, record its source (or the placeholder on retrieval failure).
Names that do not resolve, or resolve to a non-callable, add nothing. -/
def get_context_functions (module : List (List Char × PyObj)) (traceback_str : List Char) :
    List (List Char × List Char) :=
  (extract_functions_from_traceback traceback_str).foldl (ctxStep module) []

/-! ## Managed Function Registry -/

/-- A function object as the registry and hot-swap engine see it:
its identity `fid`, its `__name__`, and its `_original_function`
attribute when present (the identity of the wrapped original). -/
structure PyFunc where
  fid : Nat
  fname : String
  originalFunction : Option Nat
deriving DecidableEq, Repr

/-- `ApeManager.register_function`: `self.managed_functions[func.__name__] = func`.
The registry stores function identities keyed by name. -/
def register_function (managed_functions : List (String × Nat)) (func : PyFunc) :
    List (String × Nat) :=
  dictSet managed_functions func.fname func.fid

/-! ## Runtime Hot-Swap Engine: `hot_swap_function`

`exec(new_function_code, exec_globals, exec_locals)` runs the candidate
source in a *copy* of the caller's globals, so it never touches the
module; its outcome enters as a parameter: `none` when exec raised
(caught at the bottom of `hot_swap_function`), `some locals` with the
produced bindings in definition order otherwise. -/

/-- A value bound in `exec_locals` (or in the module scope): whether it is
callable, whether it has a `__name__` and what that name is, its
`_original_function` attribute when present, and its identity. -/
structure ExecVal where
  callable : Bool
  hasName : Bool
  vname : String
  originalFunction : Option Nat
  fid : Nat
deriving DecidableEq, Repr

/-- The loop over `exec_locals.items()`: the first binding whose value is
callable, has a `__name__`, and that name equals `func_name`. -/
def findNewFunc (execLocals : List (String × ExecVal)) (func_name : String) : Option ExecVal :=
  (execLocals.find? (fun p => p.2.callable && p.2.hasName && p.2.vname == func_name)).map (·.2)

/-- How many callables of the executed unit carry the requested declared
name (the spec's "exactly one callable whose declared name matches"). -/
def matchingCallableCount (execLocals : List (String × ExecVal)) (func_name : String) : Nat :=
  (execLocals.filter (fun p => p.2.callable && p.2.hasName && p.2.vname == func_name)).length

/-- Result of `hot_swap_function`: its return value, the caller module's
bindings afterwards, and the manager's registry afterwards. -/
structure HotSwapResult where
  result : Option ExecVal
  module : List (String × ExecVal)
  registry : List (String × Nat)
deriving DecidableEq, Repr

/-- `ApeManager.hot_swap_function`: execute the candidate (outcome given by
`execResult`), search `exec_locals` for a callable named `func_name`;
on failure return `None` leaving module and registry untouched; on
success `setattr` the module binding and, only when the new callable has
an `_original_function` attribute, update `self.managed_functions`.
Every exception path is caught and returns `None`. -/
def hot_swap_function (execResult : Option (List (String × ExecVal))) (func_name : String)
    (caller_module : List (String × ExecVal)) (managed_functions : List (String × Nat)) :
    HotSwapResult :=
  match execResult with
  | none => ⟨none, caller_module, managed_functions⟩
  | some execLocals =>
    match findNewFunc execLocals func_name with
    | none => ⟨none, caller_module, managed_functions⟩
    | some new_func =>
      let module' := dictSet caller_module func_name new_func
      let registry' :=
        match new_func.originalFunction with
        | some orig => dictSet managed_functions func_name orig
        | none => managed_functions
      ⟨some new_func, module', registry'⟩

/-! ## Persistent Source Patcher: `replace_function_in_source`

The file's current lines (as `readlines` returns them, trailing newlines
included) and the parse outcome enter as parameters: `tree = none` means
`ast.parse` raised (caught, returns `False` with nothing written);
`some nodes` lists the `ast.FunctionDef` nodes in `ast.walk` order with
their 1-based `lineno`/`end_lineno`. File writes are recorded as an
ordered event trace. -/

/-- An `ast.FunctionDef` node as the patcher reads it. -/
structure FuncNode where
  name : String
  lineno : Nat
  end_lineno : Nat
deriving DecidableEq, Repr

/-- A filesystem write of a whole file. -/
inductive FsEvent
  | write (path : String) (content : List String)
deriving DecidableEq, Repr

/-- `ApeManager.replace_function_in_source`: locate the first function-def
node named `func_name`; if absent (or the parse failed) return `False`
having written nothing; otherwise write the backup `<file>.backup` with
the original lines first, then write the patched file, where lines
`[lineno-1, end_lineno)` (0-based) are replaced by the new code plus a
blank separator line. -/
def replace_function_in_source (func_name new_function_code source_file : String)
    (source_lines : List String) (tree : Option (List FuncNode)) :
    Bool × List FsEvent :=
  match tree with
  | none => (false, [])
  | some nodes =>
    match nodes.find? (fun n => n.name == func_name) with
    | none => (false, [])
    | some target_func =>
      let start_line := target_func.lineno - 1
      let end_line := target_func.end_lineno
      let new_source :=
        source_lines.take start_line
          ++ [new_function_code ++ "\n\n"]
          ++ source_lines.drop end_line
      (true, [.write (source_file ++ ".backup") source_lines, .write source_file new_source])

/-! ## Retry Orchestrator: the `wrapper` produced by `ape_managed`

The wrapper is a `while retry_count <= max_retries` loop. We change the
loop variable to `remaining := max_retries - retry_count` (so
`retry_count = max_retries - remaining`, the guard `retry_count >=
max_retries` becomes `remaining = 0`, and the `retry_count += 1` of a
successful hot-swap becomes a decrement), which makes the recursion
structural and leaves every test of the source intact.

External behaviour enters as oracles indexed by the values the source
passes: invoking a callable of identity `fid` either returns a value or
raises an exception (`behavior`); `request_function_fix` at a given
`retry_count` yields `None` or a string (`fix`, where Python's
`if fixed_function:` is also false on the empty string);
`hot_swap_function` yields `None` or the new binding (`hotSwap`).
When hot-swap fails, the source-file fallback (lines 384-391) runs, but
both of its branches reach the same `break`, so its success does not
affect the wrapper's control flow.

A `break` leaves the `except Exception as e:` suite, and Python 3
deletes the `as`-target when the suite is left (the clause is compiled
as `try: ... finally: del e`). The `raise e` after the loop therefore
finds `e` unbound on every path that reaches it and raises
`UnboundLocalError` — modelled by the outcome `unboundLocal`. Only the
`raise e` inside the except block (retries exhausted) re-raises the
caught exception, modelled by `raised e`. -/

/-- What a wrapped call ends with: a return value, the re-raise of the
caught exception (line 363, retries exhausted), or the
`UnboundLocalError` from `raise e` after the loop (line 409), where the
except-target `e` has already been deleted. -/
inductive WOutcome
  | ret (v : Nat)
  | raised (e : Nat)
  | unboundLocal
deriving DecidableEq, Repr

/-- Observable steps of one wrapped call: an invocation of the callable
with the given identity, or one repair attempt (one
`request_function_fix` call together with the apply step it drives). -/
inductive WEvent
  | invoke (fid : Nat)
  | repair
deriving DecidableEq, Repr

/-- `APE_MODE`. -/
inductive WMode
  | full_bananas
  | ape_supervised
deriving DecidableEq, Repr

/-- The wrapper's environment: the configured mode and the oracles for
callable invocation, patch generation and hot-swap. -/
structure Env where
  mode : WMode
  behavior : Nat → Except Nat Nat
  fix : Nat → Option String
  hotSwap : Nat → String → Option PyFunc

/-- Lines 346-358: `current_func = getattr(caller_module, func.__name__,
func)`; on attempt 0 call `func` itself; on a retry call
`current_func._original_function` when that attribute exists, else
`current_func`. `binding` is the caller module's current binding for the
name (`none` when absent, making `getattr` fall back to `func`). -/
def resolveCallee (func : PyFunc) (binding : Option PyFunc) (retry_count : Nat) : Nat :=
  let current_func := binding.getD func
  if retry_count = 0 then func.fid
  else
    match current_func.originalFunction with
    | some o => o
    | none => current_func.fid

/-- The wrapper loop from a given `remaining = max_retries - retry_count`
and module binding: invoke the resolved callee; on success return; on an
exception either re-raise (bound reached), or attempt a repair — a
successful hot-swap rebinds the name and loops, every other repair path
`break`s out to the unbound `raise e`. -/
def wrapperGo (env : Env) (func : PyFunc) (max_retries : Nat) :
    Nat → Option PyFunc → WOutcome × List WEvent
  | remaining, binding =>
    let retry_count := max_retries - remaining
    let callee := resolveCallee func binding retry_count
    match env.behavior callee with
    | .ok v => (.ret v, [.invoke callee])
    | .error e =>
      match remaining with
      | 0 => (.raised e, [.invoke callee])
      | remaining' + 1 =>
        match env.fix retry_count with
        | none => (.unboundLocal, [.invoke callee, .repair])
        | some code =>
          if code.isEmpty then (.unboundLocal, [.invoke callee, .repair])
          else
            match env.mode with
            | .full_bananas =>
              match env.hotSwap retry_count code with
              | some new_func =>
                let next := wrapperGo env func max_retries remaining' (some new_func)
                (next.1, .invoke callee :: .repair :: next.2)
              | none => (.unboundLocal, [.invoke callee, .repair])
            | .ape_supervised => (.unboundLocal, [.invoke callee, .repair])

/-- One call of the wrapper: `retry_count = 0`, so
`remaining = max_retries`, and the name starts bound to the wrapper
itself, whose `_original_function` is `func` (set at decoration time). -/
def wrapperRun (env : Env) (func : PyFunc) (max_retries : Nat)
    (binding : Option PyFunc) : WOutcome × List WEvent :=
  wrapperGo env func max_retries max_retries binding

/-- In the source, `max_retries = 2`. -/
def defaultMaxRetries : Nat := 2

/-- A unit that binds two distinct callables both carrying the declared
name `f` (in Python, e.g. `def f(): ...` then `g = f` then a second
`def f(): ...`). -/
def twoCallablesNamedF : List (String × ExecVal) :=
  [("g", ⟨true, true, "f", none, 1⟩), ("f", ⟨true, true, "f", none, 2⟩)]

/-- The entry the collector's loop body produces for one name: present
exactly when the name resolves in the caller's module to a callable;
then the value is the source or the placeholder. -/
def ctxEntry (module : List (List Char × PyObj)) (name : List Char) :
    Option (List Char × List Char) :=
  match dictLookup module name with
  | none => none
  | some obj => if obj.callable then some (name, sourceOrPlaceholder obj) else none

/-- Does this event invoke the managed implementation? -/
def WEvent.isInvoke : WEvent → Bool
  | .invoke _ => true
  | .repair => false

/-- Number of invocations of the managed implementation in a trace. -/
def countInvoke (tr : List WEvent) : Nat := (tr.filter WEvent.isInvoke).length

/-- Number of repair attempts (`request_function_fix` calls) in a trace. -/
def countRepair (tr : List WEvent) : Nat := tr.count .repair

/-- After the leading invocation, a legal trace alternates: each further
invocation is directly preceded by exactly one repair attempt, with at
most one trailing repair attempt (the one whose outcome ended the
cycle). -/
def altTail : List WEvent → Bool
  | [] => true
  | [.repair] => true
  | .repair :: .invoke _ :: rest => altTail rest
  | _ => false

/-- A trace starts with an invocation and then alternates. -/
def wellFormedTrace : List WEvent → Bool
  | .invoke _ :: rest => altTail rest
  | _ => false

/-- The managed function of the concrete scenarios: identity 0, named
`f`, carrying no `_original_function`. -/
def funcF : PyFunc := ⟨0, "f", none⟩

/-- The implementation a successful hot-swap installs in the scenarios:
a plain function of identity 5. -/
def swapImpl : PyFunc := ⟨5, "f", none⟩

/-- Scenario: the function always raises exception 7 and
`request_function_fix` never produces a patch. -/
def envNoPatch : Env := ⟨.full_bananas, fun _ => .error 7, fun _ => none, fun _ _ => none⟩

/-- Scenario: supervised mode; the function always raises exception 7 and
a patch is produced. -/
def envSupervised : Env :=
  ⟨.ape_supervised, fun _ => .error 7, fun _ => some "fix", fun _ _ => none⟩

/-- Scenario: automatic mode; a patch is produced but the hot-swap fails
(so the source-patch fallback runs and, either way, the loop breaks). -/
def envSwapFail : Env :=
  ⟨.full_bananas, fun _ => .error 7, fun _ => some "fix", fun _ _ => none⟩

/-- Scenario: automatic mode; every invocation raises exception 7 and
every repair hot-swaps successfully, so the retry bound is reached. -/
def envExhaust : Env :=
  ⟨.full_bananas, fun _ => .error 7, fun _ => some "fix", fun _ _ => some swapImpl⟩

/-- Scenario: automatic mode; the original implementation (identity 0)
raises exception 7, any other implementation returns 42, and the first
repair hot-swaps `swapImpl` in. -/
def envWitSwap : Env :=
  ⟨.full_bananas, fun fid => if fid = 0 then .error 7 else .ok 42,
   fun _ => some "def f(): return 1", fun k _ => if k = 0 then some swapImpl else none⟩

/-! ## Dictionary lemmas -/

theorem find?_map_overwrite [BEq κ] [LawfulBEq κ] (k : κ) (v : α) :
    ∀ d : List (κ × α), (d.find? (fun p => p.1 == k)).isSome = true →
      (d.map (fun p => if p.1 == k then (k, v) else p)).find? (fun p => p.1 == k) = some (k, v)
  | [], h => by simp [List.find?] at h
  | (a, b) :: tl, h => by
    by_cases hak : (a == k) = true
    · simp [List.find?, hak]
    · have hak' : (a == k) = false := by simp [hak]
      have htl : (tl.find? (fun p => p.1 == k)).isSome = true := by
        simpa [List.find?, hak'] using h
      simpa [List.find?, hak'] using find?_map_overwrite k v tl htl

theorem dictLookup_dictSet [BEq κ] [LawfulBEq κ] (d : List (κ × α)) (k : κ) (v : α) :
    dictLookup (dictSet d k v) k = some v := by
  unfold dictSet
  by_cases h : (d.find? (fun p => p.1 == k)).isSome = true
  · rw [if_pos h]
    unfold dictLookup
    rw [find?_map_overwrite k v d h]
    rfl
  · rw [if_neg h]
    unfold dictLookup
    have hd : d.find? (fun p => p.1 == k) = none := by
      cases hf : d.find? (fun p => p.1 == k) with
      | none => rfl
      | some p => rw [hf] at h; simp at h
    rw [List.find?_append, hd]
    simp [List.find?]

/-- When the key is absent, dict assignment appends the new pair. -/
theorem dictSet_append_of_absent [BEq κ] [LawfulBEq κ] (d : List (κ × α)) (k : κ) (v : α)
    (h : d.find? (fun p => p.1 == k) = none) :
    dictSet d k v = d ++ [(k, v)] := by
  unfold dictSet
  rw [h]
  simp

/-! ## Claims about the Managed Function Registry -/

/-- Claim C6 counterexample: registering a second function of the same
name is not a no-op — `self.managed_functions[func.__name__] = func` is a
plain dict assignment, so the second registration replaces the first. -/
theorem register_overwrite_cx :
    register_function (register_function [] ⟨1, "f", none⟩) ⟨2, "f", none⟩ = [("f", 2)] ∧
    dictLookup (register_function (register_function [] ⟨1, "f", none⟩) ⟨2, "f", none⟩) "f"
      ≠ some 1 := by
  constructor
  · rfl
  · decide

/-- Claim C6 (amended): `register_function` stores the given implementation
under its name unconditionally, overwriting any existing record — the
registry holds the implementation of the *most recent* registration. -/
theorem register_stores_latest (managed_functions : List (String × Nat)) (func : PyFunc) :
    dictLookup (register_function managed_functions func) func.fname = some func.fid :=
  dictLookup_dictSet managed_functions func.fname func.fid

/-! ## Claims about the Persistent Source Patcher -/

/-- Claim C8: when no function-definition node of the requested name is in
the parsed file, `replace_function_in_source` reports failure and
performs no writes: no backup is produced and the file is untouched. -/
theorem patch_absent_name_no_writes (func_name new_code source_file : String)
    (source_lines : List String) (nodes : List FuncNode)
    (h : ∀ n ∈ nodes, n.name ≠ func_name) :
    replace_function_in_source func_name new_code source_file source_lines (some nodes)
      = (false, []) := by
  have hf : nodes.find? (fun n => n.name == func_name) = none :=
    List.find?_eq_none.mpr (fun n hn => by simp [h n hn])
  simp only [replace_function_in_source, hf]

/-- Claim C8 witness: a file whose only function is `g` is untouched by a
patch request for `f`. -/
theorem patch_absent_name_no_writes_witness :
    replace_function_in_source "f" "def f(): pass" "m.py" ["a\n", "b\n"]
      (some [⟨"g", 1, 2⟩]) = (false, []) :=
  patch_absent_name_no_writes "f" "def f(): pass" "m.py" ["a\n", "b\n"] [⟨"g", 1, 2⟩]
    (by decide)

/-- Claim C9: when the file contains the target function on the 0-based
line span `[a, b)` (an `ast` node with `lineno = a + 1` and
`end_lineno = b`), a successful patch first writes `<file>.backup` with
the byte-identical original lines and only then writes the patched file;
the patched file keeps every line before `a` byte-identical, keeps
everything from `b` onward byte-identical (now starting at index
`a + 1`), and carries the replacement text in between. -/
theorem patch_success_backup_and_splice
    (func_name new_code source_file : String) (source_lines : List String)
    (nodes : List FuncNode) (t : FuncNode) (a b : Nat)
    (hfind : nodes.find? (fun n => n.name == func_name) = some t)
    (hl : t.lineno = a + 1) (he : t.end_lineno = b) (ha : a ≤ source_lines.length) :
    replace_function_in_source func_name new_code source_file source_lines (some nodes)
      = (true, [.write (source_file ++ ".backup") source_lines,
                .write source_file
                  (source_lines.take a ++ [new_code ++ "\n\n"] ++ source_lines.drop b)]) ∧
    (source_lines.take a ++ [new_code ++ "\n\n"] ++ source_lines.drop b).take a
      = source_lines.take a ∧
    (source_lines.take a ++ [new_code ++ "\n\n"] ++ source_lines.drop b).drop (a + 1)
      = source_lines.drop b := by
  have hlen : (source_lines.take a).length = a := by
    simp [List.length_take]
    omega
  refine ⟨?_, ?_, ?_⟩
  · simp only [replace_function_in_source, hfind, hl, he, Nat.add_sub_cancel]
  · rw [List.append_assoc]
    exact List.take_left' hlen
  · exact List.drop_left' (by simp [hlen])

/-- Claim C9 witness: patching `f`, which spans 0-based lines `[1, 3)` of a
four-line file, backs up the original and splices the span. -/
theorem patch_success_backup_and_splice_witness :
    replace_function_in_source "f" "def f():\n  return 1" "m.py"
        ["l0\n", "def f():\n", "  pass\n", "l3\n"] (some [⟨"f", 2, 3⟩])
      = (true, [.write ("m.py" ++ ".backup") ["l0\n", "def f():\n", "  pass\n", "l3\n"],
                .write "m.py"
                  (["l0\n", "def f():\n", "  pass\n", "l3\n"].take 1
                    ++ ["def f():\n  return 1" ++ "\n\n"]
                    ++ ["l0\n", "def f():\n", "  pass\n", "l3\n"].drop 3)]) :=
  (patch_success_backup_and_splice "f" "def f():\n  return 1" "m.py"
    ["l0\n", "def f():\n", "  pass\n", "l3\n"] [⟨"f", 2, 3⟩] ⟨"f", 2, 3⟩ 1 3
    rfl rfl rfl (by decide)).1

/-! ## Claims about the Runtime Hot-Swap Engine -/

theorem findNewFunc_isSome_iff (execLocals : List (String × ExecVal)) (fn : String) :
    (findNewFunc execLocals fn).isSome = true ↔ 1 ≤ matchingCallableCount execLocals fn := by
  unfold findNewFunc matchingCallableCount
  rw [Option.isSome_map']
  constructor
  · intro h
    obtain ⟨x, hx, hpx⟩ := List.find?_isSome.mp h
    have : x ∈ execLocals.filter (fun p => p.2.callable && p.2.hasName && p.2.vname == fn) :=
      List.mem_filter.mpr ⟨hx, hpx⟩
    have hpos : 0 < (execLocals.filter
        (fun p => p.2.callable && p.2.hasName && p.2.vname == fn)).length :=
      List.length_pos_iff_exists_mem.mpr ⟨x, this⟩
    omega
  · intro h
    have hpos : 0 < (execLocals.filter
        (fun p => p.2.callable && p.2.hasName && p.2.vname == fn)).length := by omega
    obtain ⟨x, hx⟩ := List.length_pos_iff_exists_mem.mp hpos
    obtain ⟨hmem, hpx⟩ := List.mem_filter.mp hx
    exact List.find?_isSome.mpr ⟨x, hmem, hpx⟩

/-- Claim C7 counterexample: the engine never requires the matching
callable to be unique — when the executed unit defines *two* callables
whose declared name is `f`, `hot_swap_function` still succeeds, binding
the first one in definition order. -/
theorem hot_swap_multi_match_cx :
    matchingCallableCount twoCallablesNamedF "f" = 2 ∧
    (hot_swap_function (some twoCallablesNamedF) "f" [] []).result
      = some ⟨true, true, "f", none, 1⟩ := by
  constructor
  · rfl
  · rfl

/-- Claim C7 (amended): `hot_swap_function` succeeds exactly when the
executed unit produced *at least one* callable whose declared name
matches (the first such, in definition order, is installed); in every
failing case — exec raised, or no callable of the requested name — it
returns `none` and leaves both the module binding and the registry
untouched, propagating no exception (the model is a total function; the
source wraps everything in `try`/`except` returning `None`). -/
theorem hot_swap_first_match_spec (execResult : Option (List (String × ExecVal)))
    (fn : String) (caller_module : List (String × ExecVal))
    (managed_functions : List (String × Nat)) :
    ((hot_swap_function execResult fn caller_module managed_functions).result.isSome = true ↔
      ∃ execLocals, execResult = some execLocals ∧ 1 ≤ matchingCallableCount execLocals fn) ∧
    ((hot_swap_function execResult fn caller_module managed_functions).result = none →
      (hot_swap_function execResult fn caller_module managed_functions).module = caller_module ∧
      (hot_swap_function execResult fn caller_module managed_functions).registry
        = managed_functions) := by
  cases execResult with
  | none =>
    refine ⟨?_, fun _ => ⟨rfl, rfl⟩⟩
    simp [hot_swap_function]
  | some execLocals =>
    cases hf : findNewFunc execLocals fn with
    | none =>
      have hcount : ¬ (1 ≤ matchingCallableCount execLocals fn) := by
        intro hc
        have := (findNewFunc_isSome_iff execLocals fn).mpr hc
        rw [hf] at this
        simp at this
      refine ⟨?_, fun _ => ?_⟩
      · simp only [hot_swap_function, hf]
        constructor
        · intro hcontra
          simp at hcontra
        · rintro ⟨l, hl, hc⟩
          cases hl
          exact ((hcount hc).elim : false = true)
      · constructor
        · simp [hot_swap_function, hf]
        · simp [hot_swap_function, hf]
    | some new_func =>
      have hcount : 1 ≤ matchingCallableCount execLocals fn :=
        (findNewFunc_isSome_iff execLocals fn).mp (by rw [hf]; rfl)
      refine ⟨?_, fun habs => ?_⟩
      · simp only [hot_swap_function, hf]
        simp only [Option.isSome_some, true_iff]
        exact ⟨execLocals, rfl, hcount⟩
      · exfalso
        simp [hot_swap_function, hf] at habs

/-- Claim C7 witness: a failed exec leaves the module binding and the
registry exactly as they were. -/
theorem hot_swap_first_match_spec_witness :
    (hot_swap_function none "f" [("f", ⟨true, true, "f", none, 0⟩)] [("f", 3)]).module
        = [("f", ⟨true, true, "f", none, 0⟩)] ∧
    (hot_swap_function none "f" [("f", ⟨true, true, "f", none, 0⟩)] [("f", 3)]).registry
        = [("f", 3)] :=
  (hot_swap_first_match_spec none "f" [("f", ⟨true, true, "f", none, 0⟩)] [("f", 3)]).2 rfl

/-- Claim C10: on a successful hot-swap the module binding for the name is
always rebound to the new callable, but `self.managed_functions` is
updated only when the new callable carries an `_original_function`
attribute; a plain replacement leaves the registry unchanged even though
the live binding now differs from it. -/
theorem hot_swap_registry_conditional_update (execLocals : List (String × ExecVal))
    (fn : String) (caller_module : List (String × ExecVal))
    (managed_functions : List (String × Nat)) (new_func : ExecVal)
    (h : (hot_swap_function (some execLocals) fn caller_module managed_functions).result
      = some new_func) :
    dictLookup (hot_swap_function (some execLocals) fn caller_module managed_functions).module fn
      = some new_func ∧
    (∀ o, new_func.originalFunction = some o →
      (hot_swap_function (some execLocals) fn caller_module managed_functions).registry
        = dictSet managed_functions fn o) ∧
    (new_func.originalFunction = none →
      (hot_swap_function (some execLocals) fn caller_module managed_functions).registry
        = managed_functions) := by
  cases hf : findNewFunc execLocals fn with
  | none => simp [hot_swap_function, hf] at h
  | some nf =>
    have hnf : nf = new_func := by
      have hh : some nf = some new_func := by
        simpa only [hot_swap_function, hf] using h
      exact Option.some.inj hh
    subst hnf
    refine ⟨?_, fun o ho => ?_, fun ho => ?_⟩
    · simp only [hot_swap_function, hf]
      exact dictLookup_dictSet caller_module fn nf
    · simp only [hot_swap_function, hf, ho]
    · simp only [hot_swap_function, hf, ho]

/-- Claim C10 witness: hot-swapping in a plain (undecorated) replacement
`f` rebinds the module but leaves the registry's record untouched. -/
theorem hot_swap_registry_conditional_update_witness :
    dictLookup (hot_swap_function (some [("f", ⟨true, true, "f", none, 5⟩)]) "f"
        [("f", ⟨true, true, "f", none, 0⟩)] [("f", 9)]).module "f"
      = some ⟨true, true, "f", none, 5⟩ ∧
    (hot_swap_function (some [("f", ⟨true, true, "f", none, 5⟩)]) "f"
        [("f", ⟨true, true, "f", none, 0⟩)] [("f", 9)]).registry = [("f", 9)] := by
  have h := hot_swap_registry_conditional_update [("f", ⟨true, true, "f", none, 5⟩)] "f"
    [("f", ⟨true, true, "f", none, 0⟩)] [("f", 9)] ⟨true, true, "f", none, 5⟩ rfl
  exact ⟨h.1, h.2.2 rfl⟩

/-! ## Claims about the traceback extractor -/

/-- A line that contributes a name was not skipped as a file-location
line: the `continue` branch fires first. -/
theorem lineContribution_not_file (line n : List Char)
    (h : lineContribution line = some n) : isFileLocationLine line = false := by
  cases hb : isFileLocationLine line with
  | false => rfl
  | true => simp [lineContribution, hb] at h

/-- Claim C4: for every input string `extract_functions_from_traceback`
terminates (it is a total function) and never raises (it is pure); its
result is deduplicated; every returned name was produced by some line of
the input that is not a file-location continuation line; and when no
line produces a name — in particular on malformed or truncated input —
the result is the empty collection. -/
theorem extract_traceback_safe (tb : List Char) :
    (extract_functions_from_traceback tb).Nodup ∧
    (∀ n ∈ extract_functions_from_traceback tb,
      ∃ line ∈ splitOnNewline tb,
        lineContribution line = some n ∧ isFileLocationLine line = false) ∧
    ((∀ line ∈ splitOnNewline tb, lineContribution line = none) →
      extract_functions_from_traceback tb = []) := by
  refine ⟨List.nodup_dedup _, ?_, ?_⟩
  · intro n hn
    have hn' : n ∈ (splitOnNewline tb).filterMap lineContribution := List.mem_dedup.mp hn
    obtain ⟨line, hline, hcontrib⟩ := List.mem_filterMap.mp hn'
    exact ⟨line, hline, hcontrib, lineContribution_not_file line n hcontrib⟩
  · intro hall
    unfold extract_functions_from_traceback
    rw [List.filterMap_eq_nil_iff.mpr hall]
    rfl

/-- Claim C4 witness: a malformed single-line input yields the empty
collection (and the bundled structural facts hold on it). -/
theorem extract_traceback_safe_witness :
    extract_functions_from_traceback "abc".data = [] :=
  (extract_traceback_safe "abc".data).2.2 (by decide)

/-! ## Claims about the context collector -/

theorem ctx_foldl (module : List (List Char × PyObj)) :
    ∀ (names : List (List Char)) (acc : List (List Char × List Char)),
      names.Nodup →
      (∀ n ∈ names, acc.find? (fun p => p.1 == n) = none) →
      names.foldl (ctxStep module) acc = acc ++ names.filterMap (ctxEntry module)
  | [], acc, _, _ => by simp
  | n :: ns, acc, hnd, hacc => by
    have hnd' : ns.Nodup := hnd.of_cons
    have hn_ns : n ∉ ns := (List.nodup_cons.mp hnd).1
    rw [List.foldl_cons, List.filterMap_cons]
    cases hdl : dictLookup module n with
    | none =>
      have hstep : ctxStep module acc n = acc := by simp [ctxStep, hdl]
      have hce : ctxEntry module n = none := by simp [ctxEntry, hdl]
      rw [hstep, hce]
      exact ctx_foldl module ns acc hnd' (fun m hm => hacc m (List.mem_cons_of_mem n hm))
    | some obj =>
      by_cases hcall : obj.callable = true
      · have hstep : ctxStep module acc n = acc ++ [(n, sourceOrPlaceholder obj)] := by
          simp only [ctxStep, hdl, hcall, if_true]
          exact dictSet_append_of_absent acc n _ (hacc n (List.mem_cons_self n ns))
        have hce : ctxEntry module n = some (n, sourceOrPlaceholder obj) := by
          simp [ctxEntry, hdl, hcall]
        rw [hstep, hce]
        have hacc' : ∀ m ∈ ns,
            (acc ++ [(n, sourceOrPlaceholder obj)]).find? (fun p => p.1 == m) = none := by
          intro m hm
          rw [List.find?_append, hacc m (List.mem_cons_of_mem n hm)]
          have hnm : (n == m) = false := by
            rw [beq_eq_false_iff_ne]
            intro he
            exact hn_ns (he ▸ hm)
          simp [List.find?, hnm]
        rw [ctx_foldl module ns (acc ++ [(n, sourceOrPlaceholder obj)]) hnd' hacc']
        simp
      · have hstep : ctxStep module acc n = acc := by simp [ctxStep, hdl, hcall]
        have hce : ctxEntry module n = none := by simp [ctxEntry, hdl, hcall]
        rw [hstep, hce]
        exact ctx_foldl module ns acc hnd' (fun m hm => hacc m (List.mem_cons_of_mem n hm))

/-- The collector equals the per-name entries of the deduplicated
extracted names. -/
theorem get_context_eq (module : List (List Char × PyObj)) (tb : List Char) :
    get_context_functions module tb
      = (extract_functions_from_traceback tb).filterMap (ctxEntry module) :=
  ctx_foldl module (extract_functions_from_traceback tb) []
    (List.nodup_dedup _) (fun _ _ => rfl)

/-- Claim C5 counterexample: the name `foo` is extracted from the
traceback, but with a namespace in which it does not resolve the
collector returns an *empty* mapping — the unresolvable name gets no
placeholder entry; it is simply dropped (the loop body only ever adds a
key under `if hasattr(...)` and `if callable(...)`). -/
theorem context_collector_drop_cx :
    "foo".data ∈ extract_functions_from_traceback "x in foo".data ∧
    get_context_functions [] ("x in foo".data) = [] := by
  constructor
  · decide
  · decide

/-- Claim C5 (amended): the collector's mapping has an entry for exactly
those extracted names that resolve in the caller's namespace to a
callable; the entry holds the retrieved source, or the placeholder
string when `inspect.getsource` failed. Names that do not resolve, or
resolve to a non-callable, are omitted. -/
theorem context_collector_entries (module : List (List Char × PyObj)) (tb : List Char)
    (name v : List Char) :
    (name, v) ∈ get_context_functions module tb ↔
      (name ∈ extract_functions_from_traceback tb ∧
       ∃ obj, dictLookup module name = some obj ∧ obj.callable = true
         ∧ v = sourceOrPlaceholder obj) := by
  rw [get_context_eq, List.mem_filterMap]
  constructor
  · rintro ⟨a, ha, hc⟩
    cases hdl : dictLookup module a with
    | none => simp [ctxEntry, hdl] at hc
    | some obj =>
      by_cases hcall : obj.callable = true
      · have hpair : (a, sourceOrPlaceholder obj) = (name, v) := by
          simpa [ctxEntry, hdl, hcall] using hc
        have h1 : a = name := congrArg Prod.fst hpair
        have h2 : sourceOrPlaceholder obj = v := congrArg Prod.snd hpair
        subst h1
        exact ⟨ha, obj, hdl, hcall, h2.symm⟩
      · simp [ctxEntry, hdl, hcall] at hc
  · rintro ⟨hmem, obj, hdl, hcall, rfl⟩
    exact ⟨name, hmem, by simp [ctxEntry, hdl, hcall]⟩

/-! ## Claims about the Retry Orchestrator -/

theorem wrapperGo_zero (env : Env) (func : PyFunc) (mr : Nat) (binding : Option PyFunc) :
    wrapperGo env func mr 0 binding =
      match env.behavior (resolveCallee func binding (mr - 0)) with
      | .ok v => (.ret v, [.invoke (resolveCallee func binding (mr - 0))])
      | .error e => (.raised e, [.invoke (resolveCallee func binding (mr - 0))]) := by
  unfold wrapperGo
  rfl

theorem wrapperGo_succ (env : Env) (func : PyFunc) (mr r' : Nat) (binding : Option PyFunc) :
    wrapperGo env func mr (r' + 1) binding =
      match env.behavior (resolveCallee func binding (mr - (r' + 1))) with
      | .ok v => (.ret v, [.invoke (resolveCallee func binding (mr - (r' + 1)))])
      | .error _e =>
        match env.fix (mr - (r' + 1)) with
        | none =>
          (.unboundLocal, [.invoke (resolveCallee func binding (mr - (r' + 1))), .repair])
        | some code =>
          if code.isEmpty then
            (.unboundLocal, [.invoke (resolveCallee func binding (mr - (r' + 1))), .repair])
          else
            match env.mode with
            | .full_bananas =>
              match env.hotSwap (mr - (r' + 1)) code with
              | some new_func =>
                ((wrapperGo env func mr r' (some new_func)).1,
                  .invoke (resolveCallee func binding (mr - (r' + 1))) :: .repair ::
                    (wrapperGo env func mr r' (some new_func)).2)
              | none =>
                (.unboundLocal, [.invoke (resolveCallee func binding (mr - (r' + 1))), .repair])
            | .ape_supervised =>
              (.unboundLocal,
                [.invoke (resolveCallee func binding (mr - (r' + 1))), .repair]) := by
  conv_lhs => unfold wrapperGo

/-- Structure of every wrapper trace: it opens with the invocation of the
resolved callee, holds at most `remaining + 1` invocations and at most
`remaining` repair attempts, and alternates repair/invoke after the
first invocation. -/
theorem wrapperGo_trace_spec (env : Env) (func : PyFunc) (mr : Nat)
    (remaining : Nat) (binding : Option PyFunc) :
    (wrapperGo env func mr remaining binding).2.head?
        = some (.invoke (resolveCallee func binding (mr - remaining))) ∧
    countInvoke (wrapperGo env func mr remaining binding).2 ≤ remaining + 1 ∧
    countRepair (wrapperGo env func mr remaining binding).2 ≤ remaining ∧
    wellFormedTrace (wrapperGo env func mr remaining binding).2 = true := by
  induction remaining generalizing binding with
  | zero =>
    rw [wrapperGo_zero]
    cases hbeh : env.behavior (resolveCallee func binding (mr - 0)) with
    | ok v =>
      simp [countInvoke, countRepair, wellFormedTrace, altTail, WEvent.isInvoke,
        List.filter, List.count]
    | error e =>
      simp [countInvoke, countRepair, wellFormedTrace, altTail, WEvent.isInvoke,
        List.filter, List.count]
  | succ r' ih =>
    rw [wrapperGo_succ]
    cases hbeh : env.behavior (resolveCallee func binding (mr - (r' + 1))) with
    | ok v =>
      simp [countInvoke, countRepair, wellFormedTrace, altTail, WEvent.isInvoke,
        List.filter, List.count]
    | error e =>
      cases hfix : env.fix (mr - (r' + 1)) with
      | none =>
        simp [countInvoke, countRepair, wellFormedTrace, altTail, WEvent.isInvoke,
          List.filter, List.count]
      | some code =>
        cases hemp : code.isEmpty with
        | true =>
          simp [hemp, countInvoke, countRepair, wellFormedTrace, altTail, WEvent.isInvoke,
            List.filter, List.count]
        | false =>
          dsimp only
          have hcond : ¬(code.isEmpty = true) := by simp [hemp]
          rw [if_neg hcond]
          cases hmode : env.mode with
          | ape_supervised =>
            simp [countInvoke, countRepair, wellFormedTrace, altTail, WEvent.isInvoke,
              List.filter, List.count]
          | full_bananas =>
            cases hsw : env.hotSwap (mr - (r' + 1)) code with
            | none =>
              simp [countInvoke, countRepair, wellFormedTrace, altTail, WEvent.isInvoke,
                List.filter, List.count]
            | some nf =>
              obtain ⟨hhead, hci, hcr, hwf⟩ := ih (some nf)
              cases htr : (wrapperGo env func mr r' (some nf)).2 with
              | nil => rw [htr] at hhead; simp at hhead
              | cons ev tail =>
                rw [htr] at hhead hci hcr hwf
                have hev : ev = .invoke (resolveCallee func (some nf) (mr - r')) := by
                  simpa using hhead
                subst hev
                dsimp only
                rw [htr]
                refine ⟨?_, ?_, ?_, ?_⟩
                · simp
                · simp only [countInvoke, WEvent.isInvoke, List.filter] at hci ⊢
                  simp [WEvent.isInvoke, List.filter] at hci ⊢
                  omega
                · simp only [countRepair] at hcr ⊢
                  simp [List.count_cons] at hcr ⊢
                  omega
                · simp only [wellFormedTrace, altTail] at hwf ⊢
                  exact hwf

/-- Claim C2: per wrapped call there is one normal invocation plus at most
`max_retries` further invocations (in the source `max_retries = 2`),
each further invocation directly preceded by exactly one repair attempt,
at most `max_retries` repair attempts in total — and the loop always
terminates (`wrapperGo` is a total function, structurally recursive on
the remaining retry budget). -/
theorem wrapper_retry_bound (env : Env) (func : PyFunc) (max_retries : Nat)
    (binding : Option PyFunc) :
    countInvoke (wrapperRun env func max_retries binding).2 ≤ max_retries + 1 ∧
    countRepair (wrapperRun env func max_retries binding).2 ≤ max_retries ∧
    wellFormedTrace (wrapperRun env func max_retries binding).2 = true := by
  obtain ⟨_, h2, h3, h4⟩ := wrapperGo_trace_spec env func max_retries max_retries binding
  exact ⟨h2, h3, h4⟩

/-- Claim C3: attempt 0 calls the originally-decorated implementation
unconditionally, whatever is bound in the module; every retry resolves
the implementation via the *current* module binding (unwrapping its
`_original_function` when present), not the decoration-time reference;
and concretely, after attempt 0 fails and the repair hot-swaps in
`ni`, the very next invocation of the run is the one `ni` resolves to. -/
theorem wrapper_call_resolution :
    (∀ (func : PyFunc) (binding : Option PyFunc), resolveCallee func binding 0 = func.fid) ∧
    (∀ (func cur : PyFunc) (k : Nat), k ≠ 0 →
      resolveCallee func (some cur) k
        = match cur.originalFunction with | some o => o | none => cur.fid) ∧
    (∀ (env : Env) (func ni : PyFunc) (mr : Nat) (binding : Option PyFunc)
        (e : Nat) (code : String),
      env.behavior func.fid = .error e →
      env.fix 0 = some code →
      code.isEmpty = false →
      env.mode = .full_bananas →
      env.hotSwap 0 code = some ni →
      1 ≤ mr →
      ∃ tail, (wrapperRun env func mr binding).2 = .invoke func.fid :: .repair :: tail ∧
        tail.head? = some (.invoke (resolveCallee func (some ni) 1))) := by
  refine ⟨fun func binding => rfl, fun func cur k hk => ?_, ?_⟩
  · unfold resolveCallee
    rw [if_neg hk]
    rfl
  · intro env func ni mr binding e code hbeh hfix hemp hmode hsw hmr
    obtain ⟨mr', rfl⟩ : ∃ mr', mr = mr' + 1 := ⟨mr - 1, by omega⟩
    unfold wrapperRun
    rw [wrapperGo_succ]
    have hrc : resolveCallee func binding (mr' + 1 - (mr' + 1)) = func.fid := by
      rw [Nat.sub_self]
      rfl
    rw [hrc, hbeh]
    dsimp only
    rw [Nat.sub_self, hfix]
    dsimp only
    have hcond : ¬(code.isEmpty = true) := by simp [hemp]
    rw [if_neg hcond, hmode]
    dsimp only
    rw [hsw]
    dsimp only
    refine ⟨(wrapperGo env func (mr' + 1) mr' (some ni)).2, rfl, ?_⟩
    have hh := (wrapperGo_trace_spec env func (mr' + 1) mr' (some ni)).1
    have hsub : mr' + 1 - mr' = 1 := by omega
    rw [hsub] at hh
    exact hh

/-- Claim C1 evaluation: on every path that leaves the retry loop via
`break` — no usable patch, supervised mode, or hot-swap failure with
source-patch fallback — the `raise e` after the loop finds `e` already
deleted (Python 3 clears the `except`-target when the suite is left), so
the caller receives an `UnboundLocalError`, not the original exception.
Only the retries-exhausted path re-raises the original exception, via
the `raise e` *inside* the except block. -/
theorem wrapper_unbound_after_break :
    wrapperRun envNoPatch funcF 2 none = (.unboundLocal, [.invoke 0, .repair]) ∧
    wrapperRun envSupervised funcF 2 none = (.unboundLocal, [.invoke 0, .repair]) ∧
    wrapperRun envSwapFail funcF 2 none = (.unboundLocal, [.invoke 0, .repair]) ∧
    wrapperRun envExhaust funcF 2 none
      = (.raised 7, [.invoke 0, .repair, .invoke 5, .repair, .invoke 5]) :=
  ⟨rfl, rfl, rfl, rfl⟩

/-- Claim C3 witness: in the concrete hot-swap scenario the trace is
`invoke 0, repair, invoke 5, ...`: the retry right after the swap runs
the newly installed implementation. -/
theorem wrapper_call_resolution_witness :
    ∃ tail, (wrapperRun envWitSwap funcF 2 none).2 = .invoke funcF.fid :: .repair :: tail ∧
      tail.head? = some (.invoke (resolveCallee funcF (some swapImpl) 1)) :=
  wrapper_call_resolution.2.2 envWitSwap funcF swapImpl 2 none 7 "def f(): return 1"
    rfl rfl rfl rfl rfl (by omega)

end Ape
